import Mathlib

/-!
Verification of the multipart/form-data extraction routine of the
transcription proxy (supabase/functions/transcribe/main.py, Handler.do_POST,
lines 59-103), together with the body constructor MultiPartForm
(lines 16-38).  Bytes are modelled as List Nat, Python str values as
Lean String / List Char.  The Python primitives bytes.find, bytes.rfind,
bytes.split, slicing, str.split, str.strip, str.startswith and
bytes.decode("utf-8") are each given a faithful executable model below.
-/

namespace Transcribe

/-- Occurrence test: the needle occurs in the haystack starting at index i. -/
def occursAt [BEq α] (needle hay : List α) (i : Nat) : Bool :=
  needle.isPrefixOf (hay.drop i)

/-- Scan indices i, i+1, ... (fuel-bounded) for the first occurrence of the
needle.  Mirrors the index scan performed by Python bytes.find / str.find. -/
def findSubGo [BEq α] (needle hay : List α) : Nat → Nat → Option Nat
  | 0, _ => none
  | f + 1, i => if occursAt needle hay i then some i else findSubGo needle hay f (i + 1)

/-- First index at or after s where the needle occurs in the haystack. -/
def findSub [BEq α] (needle hay : List α) (s : Nat) : Option Nat :=
  findSubGo needle hay (hay.length + 1 - s) s

/-- Python bytes.find(needle, s): first occurrence index, or -1. -/
def pyFind [BEq α] (needle hay : List α) (s : Nat) : Int :=
  match findSub needle hay s with
  | none => -1
  | some i => (i : Int)

/-- Scan indices i, i-1, ..., 0 for an occurrence of the needle. -/
def rfindGo [BEq α] (needle hay : List α) : Nat → Option Nat
  | 0 => if occursAt needle hay 0 then some 0 else none
  | i + 1 => if occursAt needle hay (i + 1) then some (i + 1) else rfindGo needle hay i

/-- Python bytes.rfind(needle): last occurrence index, or -1. -/
def pyRFind [BEq α] (needle hay : List α) : Int :=
  match rfindGo needle hay hay.length with
  | none => -1
  | some i => (i : Int)

/-- Python containment test (needle in hay) for bytes / str. -/
def pyIn [BEq α] (needle hay : List α) : Bool :=
  (findSub needle hay 0).isSome

/-- Python slice hay[a:b] with full Python index semantics: negative indices
count from the end, indices clamp to the bounds, an empty range gives []. -/
def pySlice (hay : List α) (a b : Int) : List α :=
  let n : Int := hay.length
  let a2 : Int := if a < 0 then max (a + n) 0 else min a n
  let b2 : Int := if b < 0 then max (b + n) 0 else min b n
  (hay.take b2.toNat).drop a2.toNat

/-- Fuel-bounded worker for pySplit. -/
def pySplitGo [BEq α] (sep : List α) : Nat → List α → List (List α)
  | 0, hay => [hay]
  | f + 1, hay =>
    match findSub sep hay 0 with
    | none => [hay]
    | some i => hay.take i :: pySplitGo sep f (hay.drop (i + sep.length))

/-- Python bytes.split(sep) / str.split(sep) for a non-empty separator:
split at every non-overlapping occurrence, scanning left to right.  The
fuel hay.length + 1 is enough whenever sep is non-empty, because every
step consumes at least one element. -/
def pySplit [BEq α] (sep hay : List α) : List (List α) :=
  pySplitGo sep (hay.length + 1) hay

/-- The characters Python str.strip() removes (ASCII whitespace). -/
def isPySpace (c : Char) : Bool :=
  c = ' ' || c = '\t' || c = '\n' || c = '\r' || c = '\x0b' || c = '\x0c'

/-- Python str.strip(): drop whitespace from both ends. -/
def pyStrip (l : List Char) : List Char :=
  ((l.dropWhile isPySpace).reverse.dropWhile isPySpace).reverse

/-- UTF-8 encoding of a single character (Python str.encode()). -/
def charUtf8 (c : Char) : List Nat :=
  let n := c.toNat
  if n < 128 then [n]
  else if n < 2048 then [192 + n / 64, 128 + n % 64]
  else if n < 65536 then [224 + n / 4096, 128 + n / 64 % 64, 128 + n % 64]
  else [240 + n / 262144, 128 + n / 4096 % 64, 128 + n / 64 % 64, 128 + n % 64]

/-- UTF-8 encoding of a character sequence. -/
def encodeUtf8 : List Char → List Nat
  | [] => []
  | c :: cs => charUtf8 c ++ encodeUtf8 cs

/-- Byte sequence of a Lean string literal (used for the code's bytes literals). -/
def bytesOfStr (s : String) : List Nat :=
  encodeUtf8 s.data

/-- Decode one UTF-8 scalar from the front of a byte sequence, returning the
character and the remaining bytes; none on any invalid sequence, exactly as
Python bytes.decode("utf-8") rejects them (continuation ranges, overlong
forms, surrogates and values above 0x10FFFF are all rejected). -/
def decode1 : List Nat → Option (Char × List Nat)
  | [] => none
  | b :: r =>
    if b < 128 then some (Char.ofNat b, r)
    else if b < 194 then none
    else if b < 224 then
      match r with
      | b2 :: r2 =>
        if 128 ≤ b2 && b2 < 192 then
          some (Char.ofNat ((b - 192) * 64 + (b2 - 128)), r2)
        else none
      | [] => none
    else if b < 240 then
      match r with
      | b2 :: b3 :: r3 =>
        if (if b = 224 then 160 ≤ b2 && b2 < 192
            else if b = 237 then 128 ≤ b2 && b2 < 160
            else 128 ≤ b2 && b2 < 192) && (128 ≤ b3 && b3 < 192) then
          some (Char.ofNat ((b - 224) * 4096 + (b2 - 128) * 64 + (b3 - 128)), r3)
        else none
      | _ => none
    else if b < 245 then
      match r with
      | b2 :: b3 :: b4 :: r4 =>
        if (if b = 240 then 144 ≤ b2 && b2 < 192
            else if b = 244 then 128 ≤ b2 && b2 < 144
            else 128 ≤ b2 && b2 < 192) && (128 ≤ b3 && b3 < 192)
              && (128 ≤ b4 && b4 < 192) then
          some (Char.ofNat ((b - 240) * 262144 + (b2 - 128) * 4096
                  + (b3 - 128) * 64 + (b4 - 128)), r4)
        else none
      | _ => none
    else none

/-- Fuel-bounded UTF-8 decoding loop; decode1 consumes at least one byte per
character, so fuel = length of the input is always sufficient. -/
def decodeUtf8Go : Nat → List Nat → Option (List Char)
  | _, [] => some []
  | 0, _ :: _ => none
  | f + 1, b :: r =>
    match decode1 (b :: r) with
    | none => none
    | some (c, rest) => (decodeUtf8Go f rest).map (fun cs => c :: cs)

/-- Python bytes.decode("utf-8"): the character sequence, or none when the
bytes are not valid UTF-8 (Python raises UnicodeDecodeError there). -/
def decodeUtf8 (l : List Nat) : Option (List Char) :=
  decodeUtf8Go l.length l

/-- The distinct error outcomes of Handler.do_POST's parsing section.  The
code reports them through self._send_error: unsupportedContentType is
400 "Content-Type must be multipart/form-data" (line 61), missingBoundary is
400 "No boundary found in Content-Type" (line 77), noAudioFile is
400 "No audio file provided" (line 102; the code uses this single error both
when no part matches and when the matched part is malformed), internalError
is the blanket `except Exception` handler, 500 str(e) (line 134), reached
when the filename bytes are not valid UTF-8. -/
inductive ExtractErr
  | unsupportedContentType
  | missingBoundary
  | noAudioFile
  | internalError
deriving DecidableEq, Repr

/-- HTTP status code each error is sent with (lines 61, 77, 102, 134). -/
def statusOf : ExtractErr → Nat
  | .unsupportedContentType => 400
  | .missingBoundary => 400
  | .noAudioFile => 400
  | .internalError => 500

/-- Bytes of the literal b"Content-Disposition" (line 87). -/
def bCD : List Nat := bytesOfStr "Content-Disposition"

/-- Bytes of the literal b"filename=\x22" (lines 89-90); its length is 10. -/
def bFnMark : List Nat := bytesOfStr "filename=\x22"

/-- Bytes of b"\r\n". -/
def bCRLF : List Nat := [13, 10]

/-- Bytes of b"\r\n\r\n" (line 95). -/
def bCRLF2 : List Nat := [13, 10, 13, 10]

/-- Bytes of the exact quoted field marker b"name=\x22<field>\x22"; the code
hardcodes the instance b"name=\x22file\x22" (line 87). -/
def nameMark (field : List Nat) : List Nat :=
  bytesOfStr "name=\x22" ++ field ++ [34]

/-- The hardcoded target field of the handler. -/
def fileField : List Nat := bytesOfStr "file"

/-- Second element of a split result, mirroring Python's [1] indexing in
part.split("=")[1] (line 73); the code only evaluates it when the part
contains "boundary=", hence at least one "=", so the list has at least two
elements and the [] fallback is unreachable there. -/
def elem1 : List (List Char) → List Char
  | _ :: x :: _ => x
  | _ => []

/-- Boundary scan of lines 69-74: iterate over the ";"-separated pieces of
the Content-Type header, and on the first piece containing "boundary="
return split("=")[1].strip(); none when no piece contains it. -/
def findBoundary : List (List Char) → Option (List Char)
  | [] => none
  | p :: ps =>
    if pyIn "boundary=".data p then some (pyStrip (elem1 (pySplit ['='] p)))
    else findBoundary ps

/-- The part-selection test of line 87: b"Content-Disposition" in part and
b"name=\x22file\x22" in part, as raw byte containment over the whole part. -/
def partMatches (field part : List Nat) : Bool :=
  pyIn bCD part && pyIn (nameMark field) part

/-- The loop of lines 86-99: scan the parts in order and stop at the first
one passing partMatches (the break on line 99). -/
def findMatchingPart (field : List Nat) : List (List Nat) → Option (List Nat)
  | [] => none
  | p :: ps => if partMatches field p then some p else findMatchingPart field ps

/-- Lines 88-92: if b"filename=\x22" occurs in the part, decode the bytes
between the end of its first occurrence (filename_start = find + 10) and the
next quote (filename_end = find(b"\x22", filename_start)) as UTF-8 (none
models the UnicodeDecodeError the blanket handler catches); otherwise the
default filename "audio.webm" of line 82. -/
def partFilename (part : List Nat) : Option String :=
  if pyIn bFnMark part then
    (decodeUtf8 (pySlice part (pyFind bFnMark part 0 + 10)
      (pyFind [34] part (pyFind bFnMark part 0 + 10).toNat))).map List.asString
  else some "audio.webm"

/-- Lines 94-98: payload = part[find(b"\r\n\r\n")+4 : rfind(b"\r\n")],
accepted only when find succeeded (file_start > 3) and the range is not
empty or inverted (file_end > file_start); otherwise audio_file stays None. -/
def partPayload (part : List Nat) : Option (List Nat) :=
  if pyFind bCRLF2 part 0 + 4 > 3 && pyRFind bCRLF part > pyFind bCRLF2 part 0 + 4 then
    some (pySlice part (pyFind bCRLF2 part 0 + 4) (pyRFind bCRLF part))
  else none

/-- Combined processing of the single selected part (lines 88-98 followed by
the check of lines 101-103): a filename decode error escapes to the blanket
handler (500); a missing or malformed payload range leaves audio_file as
None, which line 101 turns into the 400 "No audio file provided" error. -/
def extractFromPart (p : List Nat) : Except ExtractErr (String × List Nat) :=
  match partFilename p with
  | none => .error .internalError
  | some fn =>
    match partPayload p with
    | none => .error .noAudioFile
    | some pl => .ok (fn, pl)

/-- The multipart extraction routine of Handler.do_POST, lines 59-103, as a
pure function of the body bytes, the Content-Type header and the target
field bytes: content-type gate (lines 60-62), boundary scan (lines 69-78,
including the Python falsiness of an empty boundary string), split of the
body on b"--<boundary>" (line 85), first matching part (lines 86-87, 99),
filename extraction (lines 88-92) and payload extraction (lines 94-98,
101-103).  internalError models the UnicodeDecodeError escaping to the
blanket except handler of lines 132-134. -/
def extract (body : List Nat) (contentType : String) (field : List Nat) :
    Except ExtractErr (String × List Nat) :=
  if "multipart/form-data".data.isPrefixOf contentType.data = false then
    .error .unsupportedContentType
  else
    match findBoundary (pySplit [';'] contentType.data) with
    | none => .error .missingBoundary
    | some bnd =>
      if bnd = [] then .error .missingBoundary
      else
        match findMatchingPart field
            (pySplit (bytesOfStr "--" ++ encodeUtf8 bnd) body) with
        | none => .error .noAudioFile
        | some p => extractFromPart p

/-- The body MultiPartForm builds for one add_file call followed by
get_data (lines 23-34), with the boundary as a parameter: the part header
uses the field name and filename in the Content-Disposition line, a
Content-Type line, a blank line, the payload, a trailing CRLF, and the
closing  --<boundary>--\r\n marker.  Handler.do_POST calls it with field
"file" and content type "audio/webm" (line 107). -/
def buildBody (boundary fieldname filename ctype : List Char)
    (fileData : List Nat) : List Nat :=
  bytesOfStr "--" ++ encodeUtf8 boundary ++ bCRLF
    ++ encodeUtf8 ("Content-Disposition: form-data; name=\x22".data ++ fieldname
        ++ "\x22; filename=\x22".data ++ filename ++ "\x22\r\n".data)
    ++ encodeUtf8 ("Content-Type: ".data ++ ctype ++ "\r\n\r\n".data)
    ++ fileData ++ bCRLF
    ++ bytesOfStr "--" ++ encodeUtf8 boundary ++ bytesOfStr "--\r\n"

/-- A body whose single part is named "other" but whose filename attribute is
"file": its bytes contain b"name=\x22file\x22" as a strict substring of
filename=\x22file\x22. -/
def c2Body : List Nat :=
  bytesOfStr "--B\r\nContent-Disposition: form-data; name=\x22other\x22; filename=\x22file\x22\r\n\r\nSECRET\r\n--B--\r\n"

/-- The single candidate part of c2Body produced by splitting on b"--B". -/
def c2Part : List Nat :=
  bytesOfStr "\r\nContent-Disposition: form-data; name=\x22other\x22; filename=\x22file\x22\r\n\r\nSECRET\r\n"

/-- A part whose field name is "filename": its bytes do not contain the exact
quoted sequence b"name=\x22file\x22". -/
def c2FilenamePart : List Nat :=
  bytesOfStr "\r\nContent-Disposition: form-data; name=\x22filename\x22\r\n\r\nDATA\r\n"

/-- A body whose matched part has no blank-line header separator. -/
def c3MalformedBody : List Nat :=
  bytesOfStr "--B\r\nContent-Disposition: form-data; name=\x22file\x22PAYLOAD--B--\r\n"

/-- A body in which no part names the field "file". -/
def c3NoFieldBody : List Nat :=
  bytesOfStr "--B\r\nContent-Disposition: form-data; name=\x22other\x22\r\n\r\nDATA\r\n--B--\r\n"

/-- A body delimited with the bare token XYZ while the Content-Type header
carries the quoted parameter boundary="XYZ". -/
def c4Body : List Nat :=
  bytesOfStr "--XYZ\r\nContent-Disposition: form-data; name=\x22file\x22\r\n\r\nDATA\r\n--XYZ--\r\n"

/-- A body whose matched part has the non-UTF-8 byte 0xFF as its filename. -/
def c5Body : List Nat :=
  bytesOfStr "--B\r\nContent-Disposition: form-data; name=\x22file\x22; filename=\x22"
    ++ [255] ++ bytesOfStr "\x22\r\n\r\nDATA\r\n--B--\r\n"

/-- A body with two parts that both name the field "file". -/
def c6Body : List Nat :=
  bytesOfStr "--B\r\nContent-Disposition: form-data; name=\x22file\x22\r\n\r\nFIRST\r\n--B\r\nContent-Disposition: form-data; name=\x22file\x22\r\n\r\nSECOND\r\n--B--\r\n"

/-- The first matching part of c6Body. -/
def c6First : List Nat :=
  bytesOfStr "\r\nContent-Disposition: form-data; name=\x22file\x22\r\n\r\nFIRST\r\n"

/-- The second matching part of c6Body. -/
def c6Second : List Nat :=
  bytesOfStr "\r\nContent-Disposition: form-data; name=\x22file\x22\r\n\r\nSECOND\r\n"

/-- A body whose only part names the field "speech", not "file". -/
def c7Body : List Nat :=
  bytesOfStr "--B\r\nContent-Disposition: form-data; name=\x22speech\x22\r\n\r\nDATA\r\n--B--\r\n"

/-- A well-formed single-file body used to exercise the success path. -/
def c10Body : List Nat :=
  bytesOfStr "--B\r\nContent-Disposition: form-data; name=\x22file\x22; filename=\x22a.webm\x22\r\n\r\nXYZDATA\r\n--B--\r\n"

/-- The bytes of the built part that precede the filename value: the CRLF
after the boundary line followed by the Content-Disposition line up to and
including filename=\x22 (field name instantiated to "file" as in line 107). -/
def c1MidA : List Nat :=
  bCRLF ++ bytesOfStr "Content-Disposition: form-data; name=\x22"
    ++ bytesOfStr "file" ++ bytesOfStr "\x22; filename=\x22"

/-- The bytes of the built part between the filename value and the blank
line: closing quote, CRLF, and the Content-Type header line (content type
instantiated to audio/webm as in line 107). -/
def c1MidD : List Nat :=
  bytesOfStr "\x22\r\n" ++ bytesOfStr "Content-Type: " ++ bytesOfStr "audio/webm"

/-- The boundary delimiter b"--<boundary>" the body is split on (line 85). -/
def c1Sep (boundary : List Char) : List Nat :=
  bytesOfStr "--" ++ encodeUtf8 boundary

/-- The single candidate part of the built body: header bytes, the UTF-8
encoded filename, the blank line, the payload, and the trailing CRLF. -/
def c1Mid (filename : List Char) (payload : List Nat) : List Nat :=
  c1MidA ++ encodeUtf8 filename ++ c1MidD ++ bytesOfStr "\r\n\r\n" ++ payload ++ bCRLF

theorem occursAt_iff [BEq α] [LawfulBEq α] {n h : List α} {i : Nat} :
    occursAt n h i = true ↔ n <+: h.drop i := by
  simp [occursAt]

theorem occursAt_length [BEq α] [LawfulBEq α] {n h : List α} {i : Nat}
    (hne : n ≠ []) (hocc : occursAt n h i = true) : i + n.length ≤ h.length := by
  have hp := occursAt_iff.mp hocc
  have hlen := hp.length_le
  rw [List.length_drop] at hlen
  have hn : 0 < n.length := List.length_pos.mpr hne
  omega

theorem occursAt_big [BEq α] [LawfulBEq α] {n h : List α} {i : Nat}
    (hne : n ≠ []) (hi : h.length < i + n.length) : occursAt n h i = false := by
  by_contra hc
  have := occursAt_length hne (by simpa using hc)
  omega

theorem findSubGo_some [BEq α] [LawfulBEq α] {n h : List α} {f s i : Nat}
    (hfind : findSubGo n h f s = some i) :
    s ≤ i ∧ i < s + f ∧ occursAt n h i = true ∧
      ∀ j, s ≤ j → j < i → occursAt n h j = false := by
  induction f generalizing s with
  | zero => simp [findSubGo] at hfind
  | succ f ih =>
    by_cases hocc : occursAt n h s = true
    · rw [findSubGo, if_pos hocc] at hfind
      obtain rfl : s = i := by simpa using hfind
      exact ⟨Nat.le_refl _, by omega, hocc, fun j h1 h2 => by omega⟩
    · rw [findSubGo, if_neg hocc] at hfind
      obtain ⟨h1, h2, h3, h4⟩ := ih hfind
      refine ⟨by omega, by omega, h3, fun j hj1 hj2 => ?_⟩
      rcases Nat.eq_or_lt_of_le hj1 with rfl | hj
      · simpa using hocc
      · exact h4 j hj hj2

theorem findSubGo_complete [BEq α] [LawfulBEq α] {n h : List α} {i : Nat} (f s : Nat)
    (hs : s ≤ i) (hf : i < s + f) (hocc : occursAt n h i = true)
    (hmin : ∀ j, s ≤ j → j < i → occursAt n h j = false) :
    findSubGo n h f s = some i := by
  induction f generalizing s with
  | zero => omega
  | succ f ih =>
    rcases Nat.eq_or_lt_of_le hs with rfl | hlt
    · rw [findSubGo, if_pos hocc]
    · have hsocc : occursAt n h s = false := hmin s (Nat.le_refl _) hlt
      rw [findSubGo, if_neg (by simp [hsocc])]
      exact ih (s + 1) hlt (by omega) (fun j hj1 hj2 => hmin j (by omega) hj2)

theorem findSubGo_none [BEq α] [LawfulBEq α] {n h : List α} {f s : Nat}
    (hfind : findSubGo n h f s = none) :
    ∀ j, s ≤ j → j < s + f → occursAt n h j = false := by
  induction f generalizing s with
  | zero => omega
  | succ f ih =>
    intro j hj1 hj2
    by_cases hocc : occursAt n h s = true
    · rw [findSubGo, if_pos hocc] at hfind; cases hfind
    · rcases Nat.eq_or_lt_of_le hj1 with rfl | hj
      · simpa using hocc
      · rw [findSubGo, if_neg hocc] at hfind
        exact ih hfind j hj (by omega)

theorem findSub_some [BEq α] [LawfulBEq α] {n h : List α} {s i : Nat}
    (hfind : findSub n h s = some i) :
    s ≤ i ∧ occursAt n h i = true ∧ ∀ j, s ≤ j → j < i → occursAt n h j = false := by
  obtain ⟨h1, _, h3, h4⟩ := findSubGo_some hfind
  exact ⟨h1, h3, h4⟩

theorem findSub_eq_some [BEq α] [LawfulBEq α] {n h : List α} (hne : n ≠ []) {s i : Nat}
    (hs : s ≤ i) (hocc : occursAt n h i = true)
    (hmin : ∀ j, s ≤ j → j < i → occursAt n h j = false) :
    findSub n h s = some i := by
  have hlen := occursAt_length hne hocc
  have hn : 0 < n.length := List.length_pos.mpr hne
  exact findSubGo_complete _ s hs (by omega) hocc hmin

theorem findSub_eq_none [BEq α] [LawfulBEq α] {n h : List α} {s : Nat}
    (hall : ∀ j, s ≤ j → occursAt n h j = false) : findSub n h s = none := by
  cases hfind : findSub n h s with
  | none => rfl
  | some i =>
    obtain ⟨h1, h2, _⟩ := findSub_some hfind
    rw [hall i h1] at h2; cases h2

theorem findSub_none [BEq α] [LawfulBEq α] {n h : List α} (hne : n ≠ []) {s : Nat}
    (hfind : findSub n h s = none) : ∀ j, s ≤ j → occursAt n h j = false := by
  intro j hj
  have hn : 0 < n.length := List.length_pos.mpr hne
  by_cases hjl : j < s + (h.length + 1 - s)
  · exact findSubGo_none hfind j hj hjl
  · exact occursAt_big hne (by omega)

theorem pyIn_of_occursAt [BEq α] [LawfulBEq α] {n h : List α} (hne : n ≠ []) {i : Nat}
    (hocc : occursAt n h i = true) : pyIn n h = true := by
  rw [pyIn]
  cases hfind : findSub n h 0 with
  | none => rw [findSub_none hne hfind i (Nat.zero_le _)] at hocc; cases hocc
  | some k => rfl

theorem pyIn_eq_false [BEq α] [LawfulBEq α] {n h : List α}
    (hall : ∀ i, occursAt n h i = false) : pyIn n h = false := by
  rw [pyIn, findSub_eq_none (fun j _ => hall j)]; rfl

theorem occursAt_append_left [BEq α] [LawfulBEq α] {n P X : List α} {j : Nat}
    (hw : j + n.length ≤ P.length) : occursAt n (P ++ X) j = occursAt n P j := by
  rw [Bool.eq_iff_iff, occursAt_iff, occursAt_iff,
    List.drop_append_of_le_length (by omega)]
  constructor
  · intro hp
    have hlen : n.length ≤ (P.drop j).length := by rw [List.length_drop]; omega
    rw [List.prefix_iff_eq_take, List.take_append_of_le_length hlen] at hp
    rw [hp]
    exact List.take_prefix _ _
  · intro hp
    exact hp.trans (List.prefix_append _ _)

theorem occursAt_append_of_occursAt [BEq α] [LawfulBEq α] {n P X : List α} {j : Nat}
    (hocc : occursAt n P j = true) : occursAt n (P ++ X) j = true := by
  rw [occursAt_iff] at hocc ⊢
  by_cases hj : j ≤ P.length
  · rw [List.drop_append_of_le_length hj]
    exact hocc.trans (List.prefix_append _ _)
  · rw [List.drop_eq_nil_of_le (by omega)] at hocc
    rw [List.prefix_nil] at hocc
    subst hocc
    exact List.nil_prefix

theorem findSub_append [BEq α] [LawfulBEq α] {n P X : List α} (hne : n ≠ []) {k : Nat}
    (hfind : findSub n P 0 = some k) : findSub n (P ++ X) 0 = some k := by
  obtain ⟨-, hocc, hmin⟩ := findSub_some hfind
  have hkw := occursAt_length hne hocc
  refine findSub_eq_some hne (Nat.zero_le _) (occursAt_append_of_occursAt hocc) ?_
  intro j _ hj
  rw [occursAt_append_left (by omega)]
  exact hmin j (Nat.zero_le _) hj

theorem occursAt_middle_avoid [BEq α] [LawfulBEq α] {n A M R : List α} {j : Nat}
    (hne : n ≠ []) (hMne : M ≠ []) (hdisj : ∀ b ∈ n, b ∉ M)
    (hocc : occursAt n (A ++ M ++ R) j = true) :
    j + n.length ≤ A.length ∨ A.length + M.length ≤ j := by
  by_contra hcon
  push_neg at hcon
  obtain ⟨h1, h2⟩ := hcon
  have hM : 0 < M.length := List.length_pos.mpr hMne
  have hn : 0 < n.length := List.length_pos.mpr hne
  have hLlen := occursAt_length hne hocc
  rw [List.length_append, List.length_append] at hLlen
  set k := max j A.length with hk
  have hk1 : j ≤ k := Nat.le_max_left _ _
  have hk2 : A.length ≤ k := Nat.le_max_right _ _
  have hk3 : k - j < n.length := by omega
  have hk4 : k - A.length < M.length := by omega
  have hp := occursAt_iff.mp hocc
  have hkL : k < (A ++ M ++ R).length := by
    rw [List.length_append, List.length_append]; omega
  have hgetn : n[k - j] = (A ++ M ++ R)[k] := by
    have h5 := hp.getElem (n := k - j) hk3
    rw [List.getElem_drop] at h5
    have h6 : j + (k - j) = k := by omega
    simp only [h6] at h5
    exact h5
  have hgetM : (A ++ M ++ R)[k] = M[k - A.length] := by
    have hkAM : k < (A ++ M).length := by rw [List.length_append]; omega
    rw [List.getElem_append_left hkAM, List.getElem_append_right hk2]
  have hmem : n[k - j] ∈ M := by
    rw [hgetn, hgetM]
    exact List.getElem_mem _
  exact hdisj _ (List.getElem_mem _) hmem

theorem rfindGo_complete [BEq α] [LawfulBEq α] {n h : List α} {i : Nat} (i0 : Nat)
    (hi : i ≤ i0) (hocc : occursAt n h i = true)
    (hmax : ∀ j, i < j → j ≤ i0 → occursAt n h j = false) :
    rfindGo n h i0 = some i := by
  induction i0 with
  | zero =>
    obtain rfl : i = 0 := by omega
    rw [rfindGo, if_pos hocc]
  | succ i0 ih =>
    rcases Nat.eq_or_lt_of_le hi with rfl | hlt
    · rw [rfindGo, if_pos hocc]
    · have : occursAt n h (i0 + 1) = false := hmax _ hlt (Nat.le_refl _)
      rw [rfindGo, if_neg (by simp [this])]
      exact ih (by omega) (fun j hj1 hj2 => hmax j hj1 (by omega))

theorem pyRFind_concat [BEq α] [LawfulBEq α] {n k : List α} (hne : n ≠ []) :
    pyRFind n (k ++ n) = (k.length : Int) := by
  have hocc : occursAt n (k ++ n) k.length = true := by
    rw [occursAt_iff, List.drop_left]
  have hmax : ∀ j, k.length < j → j ≤ (k ++ n).length → occursAt n (k ++ n) j = false := by
    intro j hj1 hj2
    apply occursAt_big hne
    rw [List.length_append]
    have hn : 0 < n.length := List.length_pos.mpr hne
    omega
  rw [pyRFind, rfindGo_complete (k ++ n).length
    (by rw [List.length_append]; omega) hocc hmax]

theorem pyIn_false_occursAt [BEq α] [LawfulBEq α] {n h : List α}
    (hin : pyIn n h = false) : ∀ i, occursAt n h i = false := by
  intro i
  rw [pyIn] at hin
  cases hfind : findSub n h 0 with
  | none =>
    by_contra hc
    have hocc : occursAt n h i = true := by simpa using hc
    have hne : n ≠ [] := by
      intro hnil; subst hnil
      rw [show findSub [] h 0 = findSubGo ([] : List α) h (h.length + 1) 0 from rfl] at hfind
      cases hl : h.length + 1 with
      | zero => omega
      | succ m =>
        rw [hl] at hfind
        rw [findSubGo, if_pos (by simp [occursAt])] at hfind
        cases hfind
    rw [findSub_none hne hfind i (Nat.zero_le _)] at hocc
    cases hocc
  | some k => rw [hfind] at hin; cases hin



theorem occursAt_drop_bound [BEq α] [LawfulBEq α] {sep hay : List α} {i : Nat}
    (hsep : sep ≠ []) (hocc : occursAt sep hay i = true) :
    (hay.drop (i + sep.length)).length < hay.length := by
  have h1 := occursAt_length hsep hocc
  have h2 : 0 < sep.length := List.length_pos.mpr hsep
  rw [List.length_drop]
  omega

theorem pySplitGo_congr [BEq α] [LawfulBEq α] {sep : List α} (hsep : sep ≠ []) :
    ∀ f g (hay : List α), hay.length < f → hay.length < g →
      pySplitGo sep f hay = pySplitGo sep g hay := by
  intro f
  induction f with
  | zero => intro g hay hf; omega
  | succ f ih =>
    intro g hay hf hg
    cases g with
    | zero => omega
    | succ g =>
      rw [pySplitGo, pySplitGo]
      cases hfind : findSub sep hay 0 with
      | none => rfl
      | some i =>
        obtain ⟨-, hocc, -⟩ := findSub_some hfind
        have hlt := occursAt_drop_bound hsep hocc
        dsimp only
        rw [ih g (hay.drop (i + sep.length)) (by omega) (by omega)]

theorem pySplit_of_none [BEq α] [LawfulBEq α] {sep hay : List α}
    (hfind : findSub sep hay 0 = none) : pySplit sep hay = [hay] := by
  rw [pySplit, pySplitGo, hfind]

theorem pySplit_of_some [BEq α] [LawfulBEq α] {sep hay : List α} (hsep : sep ≠ [])
    {i : Nat} (hfind : findSub sep hay 0 = some i) :
    pySplit sep hay = hay.take i :: pySplit sep (hay.drop (i + sep.length)) := by
  rw [pySplit, pySplitGo, hfind]
  obtain ⟨-, hocc, -⟩ := findSub_some hfind
  have hlt := occursAt_drop_bound hsep hocc
  dsimp only
  rw [pySplit, pySplitGo_congr hsep hay.length ((hay.drop (i + sep.length)).length + 1)
    (hay.drop (i + sep.length)) (by omega) (by omega)]

theorem singleton_occursAt [BEq α] [LawfulBEq α] {c : α} {hay : List α} {j : Nat}
    (hocc : occursAt [c] hay j = true) : ∃ h' : j < hay.length, hay[j] = c := by
  rw [occursAt_iff] at hocc
  have hlen := hocc.length_le
  rw [List.length_drop] at hlen
  simp only [List.length_cons, List.length_nil] at hlen
  have hj : j < hay.length := by omega
  refine ⟨hj, ?_⟩
  have := hocc.getElem (n := 0) (by simp)
  simp only [List.getElem_cons_zero, List.getElem_drop, Nat.add_zero] at this
  exact this.symm

theorem occursAt_singleton_of_getElem [BEq α] [LawfulBEq α] {c : α} {hay : List α}
    {j : Nat} (hj : j < hay.length) (hc : hay[j] = c) : occursAt [c] hay j = true := by
  rw [occursAt_iff, List.drop_eq_getElem_cons hj, hc]
  exact ⟨_, rfl⟩

theorem findSub_singleton_none [BEq α] [LawfulBEq α] {c : α} {hay : List α}
    (hni : c ∉ hay) : findSub [c] hay 0 = none := by
  apply findSub_eq_none
  intro j _
  by_contra hcon
  obtain ⟨hj, hc⟩ := singleton_occursAt (by simpa using hcon)
  exact hni (hc ▸ List.getElem_mem hj)

theorem findSub_singleton_append [BEq α] [LawfulBEq α] {c : α} {A B : List α}
    (hni : c ∉ A) : findSub [c] (A ++ c :: B) 0 = some A.length := by
  apply findSub_eq_some (by simp) (Nat.zero_le _)
  · refine occursAt_singleton_of_getElem
      (by simp only [List.length_append, List.length_cons]; omega) ?_
    rw [List.getElem_append_right (Nat.le_refl _)]
    simp
  · intro j _ hj
    by_contra hcon
    obtain ⟨hjl, hc⟩ := singleton_occursAt (by simpa using hcon)
    rw [List.getElem_append_left hj] at hc
    exact hni (hc ▸ List.getElem_mem hj)

theorem pySplit_singleton_none [BEq α] [LawfulBEq α] {c : α} {hay : List α}
    (hni : c ∉ hay) : pySplit [c] hay = [hay] :=
  pySplit_of_none (findSub_singleton_none hni)

theorem pySplit_singleton_append [BEq α] [LawfulBEq α] {c : α} {A B : List α}
    (hni : c ∉ A) : pySplit [c] (A ++ c :: B) = A :: pySplit [c] B := by
  rw [pySplit_of_some (by simp) (findSub_singleton_append hni)]
  have h1 : (A ++ c :: B).take A.length = A := List.take_left _ _
  have h2 : (A ++ c :: B).drop (A.length + [c].length) = B := by
    have h3 : A ++ c :: B = (A ++ [c]) ++ B := by simp
    rw [h3]
    apply List.drop_left'
    simp
  rw [h1, h2]

theorem pySplitGo_infix [BEq α] [LawfulBEq α] {sep : List α} :
    ∀ f (hay x : List α), x ∈ pySplitGo sep f hay → x <:+: hay := by
  intro f
  induction f with
  | zero =>
    intro hay x hx
    simp only [pySplitGo, List.mem_singleton] at hx
    exact hx ▸ List.infix_refl _
  | succ f ih =>
    intro hay x hx
    rw [pySplitGo] at hx
    cases hfind : findSub sep hay 0 with
    | none =>
      rw [hfind] at hx
      simp only [List.mem_singleton] at hx
      exact hx ▸ List.infix_refl _
    | some i =>
      rw [hfind] at hx
      simp only [List.mem_cons] at hx
      rcases hx with rfl | hx
      · exact (List.take_prefix _ _).isInfix
      · exact (ih _ x hx).trans (List.drop_suffix _ _).isInfix

theorem pySplit_infix [BEq α] [LawfulBEq α] {sep hay x : List α}
    (hx : x ∈ pySplit sep hay) : x <:+: hay :=
  pySplitGo_infix _ _ _ hx

theorem pySlice_infix {hay : List α} {a b : Int} : pySlice hay a b <:+: hay := by
  rw [pySlice]
  exact ((List.drop_suffix _ _).isInfix).trans (List.take_prefix _ _).isInfix

theorem dropWhile_eq_self_of_none {p : Char → Bool} {l : List Char}
    (h : ∀ x ∈ l, p x = false) : l.dropWhile p = l := by
  cases l with
  | nil => rfl
  | cons c t =>
    rw [List.dropWhile_cons, h c (List.mem_cons_self _ _)]
    simp

theorem pyStrip_eq_self {l : List Char} (h : ∀ x ∈ l, isPySpace x = false) :
    pyStrip l = l := by
  rw [pyStrip, dropWhile_eq_self_of_none h,
    dropWhile_eq_self_of_none (fun x hx => h x (List.mem_reverse.mp hx)),
    List.reverse_reverse]

theorem charUtf8_ascii {c : Char} (h : c.toNat < 128) : charUtf8 c = [c.toNat] := by
  rw [charUtf8]
  simp [h]

theorem encodeUtf8_ascii {l : List Char} (h : ∀ c ∈ l, c.toNat < 128) :
    encodeUtf8 l = l.map Char.toNat := by
  induction l with
  | nil => rfl
  | cons c t ih =>
    rw [encodeUtf8, charUtf8_ascii (h c (List.mem_cons_self _ _)),
      ih (fun x hx => h x (List.mem_cons_of_mem _ hx)), List.map_cons]
    rfl

theorem encodeUtf8_append (a b : List Char) :
    encodeUtf8 (a ++ b) = encodeUtf8 a ++ encodeUtf8 b := by
  induction a with
  | nil => rfl
  | cons c t ih => rw [List.cons_append, encodeUtf8, encodeUtf8, ih, List.append_assoc]

theorem charUtf8_ne_nil (c : Char) : charUtf8 c ≠ [] := by
  rw [charUtf8]
  split
  · simp
  · split
    · simp
    · split <;> simp

theorem encodeUtf8_ne_nil {l : List Char} (h : l ≠ []) : encodeUtf8 l ≠ [] := by
  cases l with
  | nil => exact absurd rfl h
  | cons c t =>
    rw [encodeUtf8]
    intro hc
    exact charUtf8_ne_nil c (List.append_eq_nil.mp hc).1

theorem mem_encodeUtf8_ascii {l : List Char} (h : ∀ c ∈ l, c.toNat < 128)
    {b : Nat} (hb : b ∈ encodeUtf8 l) : ∃ c ∈ l, b = c.toNat := by
  rw [encodeUtf8_ascii h] at hb
  obtain ⟨c, hc, rfl⟩ := List.mem_map.mp hb
  exact ⟨c, hc, rfl⟩

theorem decodeUtf8Go_ascii {l : List Char} (h : ∀ c ∈ l, c.toNat < 128) :
    ∀ f, l.length ≤ f → decodeUtf8Go f (l.map Char.toNat) = some l := by
  induction l with
  | nil => intro f _; cases f <;> rfl
  | cons c t ih =>
    intro f hf
    cases f with
    | zero => simp at hf
    | succ f =>
      have hc : c.toNat < 128 := h c (List.mem_cons_self _ _)
      rw [List.map_cons, decodeUtf8Go]
      rw [show decode1 (c.toNat :: t.map Char.toNat)
        = some (Char.ofNat c.toNat, t.map Char.toNat) from by rw [decode1.eq_def]; simp [hc]]
      dsimp only
      rw [ih (fun x hx => h x (List.mem_cons_of_mem _ hx)) f (by simpa using hf)]
      simp [Char.ofNat_toNat]

theorem decodeUtf8_encodeUtf8_ascii {l : List Char} (h : ∀ c ∈ l, c.toNat < 128) :
    decodeUtf8 (encodeUtf8 l) = some l := by
  rw [decodeUtf8, encodeUtf8_ascii h]
  exact decodeUtf8Go_ascii h _ (by simp)

theorem findBoundary_eq_none {l : List (List Char)}
    (h : ∀ p ∈ l, pyIn "boundary=".data p = false) : findBoundary l = none := by
  induction l with
  | nil => rfl
  | cons p ps ih =>
    rw [findBoundary, if_neg (by simp [h p (List.mem_cons_self _ _)])]
    exact ih (fun q hq => h q (List.mem_cons_of_mem _ hq))

theorem findMatchingPart_eq_none {f : List Nat} {l : List (List Nat)}
    (h : ∀ p ∈ l, partMatches f p = false) : findMatchingPart f l = none := by
  induction l with
  | nil => rfl
  | cons p ps ih =>
    rw [findMatchingPart, if_neg (by simp [h p (List.mem_cons_self _ _)])]
    exact ih (fun q hq => h q (List.mem_cons_of_mem _ hq))

theorem findMatchingPart_append {f : List Nat} {l1 l2 : List (List Nat)} {p : List Nat}
    (h1 : ∀ q ∈ l1, partMatches f q = false) (hp : partMatches f p = true) :
    findMatchingPart f (l1 ++ p :: l2) = some p := by
  induction l1 with
  | nil => rw [List.nil_append, findMatchingPart, if_pos hp]
  | cons q qs ih =>
    rw [List.cons_append, findMatchingPart,
      if_neg (by simp [h1 q (List.mem_cons_self _ _)])]
    exact ih (fun r hr => h1 r (List.mem_cons_of_mem _ hr))

theorem findMatchingPart_mem {f : List Nat} {l : List (List Nat)} {p : List Nat}
    (h : findMatchingPart f l = some p) : p ∈ l := by
  induction l with
  | nil => cases h
  | cons q qs ih =>
    rw [findMatchingPart] at h
    by_cases hq : partMatches f q = true
    · rw [if_pos hq] at h
      exact (Option.some_inj.mp h) ▸ List.mem_cons_self _ _
    · rw [if_neg hq] at h
      exact List.mem_cons_of_mem _ (ih h)

theorem pySlice_of_natCast {hay : List α} {a b : Nat} (ha : a ≤ hay.length)
    (hb : b ≤ hay.length) :
    pySlice hay (a : Int) (b : Int) = (hay.take b).drop a := by
  rw [pySlice]
  rw [if_neg (by omega), if_neg (by omega)]
  have h3 : min (a : Int) (hay.length : Int) = (a : Int) := by omega
  have h4 : min (b : Int) (hay.length : Int) = (b : Int) := by omega
  rw [h3, h4, Int.toNat_natCast, Int.toNat_natCast]

theorem pySlice_middle {X Y Z : List α} :
    pySlice (X ++ Y ++ Z) ((X.length : Nat) : Int) (((X.length + Y.length : Nat)) : Int)
      = Y := by
  rw [pySlice_of_natCast (by simp [List.length_append])
    (by simp [List.length_append])]
  rw [@List.take_left' _ (X ++ Y) Z _ (by simp [List.length_append]),
    List.drop_left]

theorem extract_of_unsupported {body : List Nat} {ct : String} {field : List Nat}
    (h : "multipart/form-data".data.isPrefixOf ct.data = false) :
    extract body ct field = .error .unsupportedContentType := by
  rw [extract, if_pos h]

theorem partPayload_eq_none {p : List Nat}
    (hmal : findSub bCRLF2 p 0 = none ∨ pyRFind bCRLF p ≤ pyFind bCRLF2 p 0 + 4) :
    partPayload p = none := by
  rw [partPayload]
  split
  · next hcond =>
    exfalso
    rw [Bool.and_eq_true, decide_eq_true_iff, decide_eq_true_iff] at hcond
    obtain ⟨h1, h2⟩ := hcond
    rcases hmal with hnone | hle
    · have h1' : (-1 : Int) + 4 > 3 := by
        rw [pyFind, hnone] at h1
        exact h1
      omega
    · omega
  · rfl

/-- C8: for every input whose Content-Type header does not begin with
multipart/form-data, extraction fails with UnsupportedContentType; the body
is universally quantified and does not occur in the conclusion, so the body
bytes have no influence on this outcome (lines 59-62 run before the body is
even read on line 66). -/
theorem c8_unsupported_content_type (body : List Nat) (ct : String) (field : List Nat)
    (h : "multipart/form-data".data.isPrefixOf ct.data = false) :
    extract body ct field = .error .unsupportedContentType :=
  extract_of_unsupported h

/-- Witness for C8 at the concrete header "application/json". -/
theorem c8_witness :
    extract (bytesOfStr "anything") "application/json" fileField
      = .error .unsupportedContentType :=
  c8_unsupported_content_type (bytesOfStr "anything") "application/json" fileField
    (by decide)

/-- C9: for every input whose Content-Type header begins with
multipart/form-data but none of whose semicolon-separated parameters
contains "boundary=", extraction fails with MissingBoundary (lines 69-78). -/
theorem c9_missing_boundary (body : List Nat) (ct : String) (field : List Nat)
    (hmp : "multipart/form-data".data.isPrefixOf ct.data = true)
    (hnb : ∀ p ∈ pySplit [';'] ct.data, pyIn "boundary=".data p = false) :
    extract body ct field = .error .missingBoundary := by
  rw [extract, if_neg (by simp [hmp]), findBoundary_eq_none hnb]

/-- Witness for C9 at the concrete header with a charset but no boundary. -/
theorem c9_witness :
    extract (bytesOfStr "anything") "multipart/form-data; charset=utf-8" fileField
      = .error .missingBoundary :=
  c9_missing_boundary (bytesOfStr "anything") "multipart/form-data; charset=utf-8"
    fileField (by decide) (by decide)

/-- Counterexample to C4: the claim says a quoted boundary parameter
boundary="XYZ" yields the token XYZ without the quote characters, but the
code (line 73) strips only whitespace, so the computed token keeps the
quotes; consequently a body correctly delimited with --XYZ is not split at
its delimiters at all, and the whole body is treated as one part whose
garbage payload even includes the closing delimiter. -/
theorem c4_counterexample :
    findBoundary (pySplit [';'] "multipart/form-data; boundary=\x22XYZ\x22".data)
        = some "\x22XYZ\x22".data ∧
      "\x22XYZ\x22".data ≠ "XYZ".data ∧
      extract c4Body "multipart/form-data; boundary=\x22XYZ\x22" fileField
        = .ok ("audio.webm", bytesOfStr "DATA\r\n--XYZ--") :=
  ⟨rfl, by decide, rfl⟩

/-- Boundary-token computation on a header of the shape
multipart/form-data; boundary=<v> for a value free of ";" and "=": the
code returns the value stripped of whitespace only. -/
theorem boundaryToken_of_param (v : List Char) (hsemi : ';' ∉ v) (heq : '=' ∉ v) :
    findBoundary (pySplit [';'] ("multipart/form-data; boundary=".data ++ v))
      = some (pyStrip v) := by
  have hd : "multipart/form-data; boundary=".data ++ v
      = "multipart/form-data".data ++ ';' :: (" boundary=".data ++ v) := by
    have h0 : "multipart/form-data; boundary=".data
        = "multipart/form-data".data ++ ';' :: " boundary=".data := by decide
    rw [h0]
    simp [List.append_assoc]
  rw [hd, pySplit_singleton_append (by decide),
    pySplit_singleton_none (by
      intro hc
      rcases List.mem_append.mp hc with hc1 | hc2
      · exact absurd hc1 (by decide)
      · exact hsemi hc2)]
  rw [findBoundary, if_neg (by decide)]
  have hin : pyIn "boundary=".data (" boundary=".data ++ v) = true := by
    apply pyIn_of_occursAt (by decide) (i := 1)
    rw [occursAt_iff]
    have h1 : " boundary=".data ++ v = ' ' :: ("boundary=".data ++ v) := by
      have h2 : " boundary=".data = ' ' :: "boundary=".data := by decide
      rw [h2, List.cons_append]
    rw [h1, List.drop_succ_cons, List.drop_zero]
    exact List.prefix_append _ _
  rw [findBoundary, if_pos hin]
  have h3 : " boundary=".data ++ v = " boundary".data ++ '=' :: v := by
    have h4 : " boundary=".data = " boundary".data ++ ['='] := by decide
    rw [h4, List.append_assoc, List.singleton_append]
  rw [h3, pySplit_singleton_append (by decide), pySplit_singleton_none heq, elem1]

/-- C4 as amended: the boundary token is computed by scanning the
semicolon-separated parameters of the Content-Type header for one containing
"boundary=", taking the substring between the first and the second "=" of
that parameter, and trimming surrounding whitespace only — quotes are not
removed, so boundary="XYZ" yields the five-character token "XYZ" including
both quote characters. -/
theorem c4_boundary_token_amended (v : List Char) (hsemi : ';' ∉ v) (heq : '=' ∉ v) :
    findBoundary (pySplit [';'] ("multipart/form-data; boundary=".data ++ v))
      = some (pyStrip v) :=
  boundaryToken_of_param v hsemi heq

/-- Witness for the amended C4: at the quoted value "XYZ" the computed token
keeps its surrounding quotes verbatim. -/
theorem c4_witness :
    findBoundary (pySplit [';'] ("multipart/form-data; boundary=".data
        ++ "\x22XYZ\x22".data)) = some (pyStrip "\x22XYZ\x22".data) ∧
      pyStrip "\x22XYZ\x22".data = "\x22XYZ\x22".data :=
  ⟨c4_boundary_token_amended "\x22XYZ\x22".data (by decide) (by decide), by decide⟩

/-- Counterexample to C2: the claim says a part is selected only under exact
quoted-name matching of its Content-Disposition field name, and that the
target name occurring inside a filename attribute is never a match.  The
code (line 87) tests raw byte containment of b"name=\x22file\x22" over the
whole part, and filename=\x22file\x22 contains that sequence, so the sole
part of c2Body — whose field name is "other" — is selected and its payload
returned instead of a FieldNotFound failure. -/
theorem c2_counterexample :
    partMatches fileField c2Part = true ∧
      pyIn (nameMark (bytesOfStr "other")) c2Part = true ∧
      extract c2Body "multipart/form-data; boundary=B" fileField
        = .ok ("file", bytesOfStr "SECRET") :=
  ⟨by decide, by decide, rfl⟩

/-- C2 as amended: a candidate part is selected only when its bytes contain
both b"Content-Disposition" and the exact quoted sequence
b"name=\x22<field>\x22" somewhere in the part.  The closing quote makes the
match exact enough to reject a field named "filename" when the target is
"file", but the quoted sequence occurring inside a filename attribute or the
payload bytes still causes a false-positive selection. -/
theorem c2_exact_marker_amended (field p : List Nat)
    (h : partMatches field p = true) :
    pyIn bCD p = true ∧ pyIn (nameMark field) p = true := by
  rw [partMatches, Bool.and_eq_true] at h
  exact h

/-- Witness for the amended C2: the decoy part is selected and indeed
contains the exact marker, while the part whose field name is "filename" is
not selected for the target "file". -/
theorem c2_witness :
    (pyIn bCD c2Part = true ∧ pyIn (nameMark fileField) c2Part = true) ∧
      partMatches fileField c2FilenamePart = false :=
  ⟨c2_exact_marker_amended fileField c2Part (by decide), by decide⟩

/-- Counterexample to C3: the claim says a malformed matched part fails with
a MalformedPart error distinct from FieldNotFound.  The code has no such
distinct error: both a matched part with no blank-line separator
(c3MalformedBody) and a body whose parts never name the field
(c3NoFieldBody) leave audio_file as None and produce the one shared
400 "No audio file provided" error of lines 101-103. -/
theorem c3_counterexample :
    extract c3MalformedBody "multipart/form-data; boundary=B" fileField
        = .error .noAudioFile ∧
      extract c3NoFieldBody "multipart/form-data; boundary=B" fileField
        = .error .noAudioFile :=
  ⟨rfl, rfl⟩

/-- C3 as amended: when the selected matching part lacks the double-CRLF
separator (find returns -1) or the computed payload range is empty or
inverted (rfind result at most find + 4), and the filename step itself does
not raise, extraction fails with the same 400 "No audio file provided" error
used for a missing field — the code does not distinguish a MalformedPart
error kind — and no empty or truncated payload is ever returned. -/
theorem c3_malformed_part_amended (body : List Nat) (ct : String) (field : List Nat)
    (bnd : List Char) (p : List Nat)
    (hmp : "multipart/form-data".data.isPrefixOf ct.data = true)
    (hfb : findBoundary (pySplit [';'] ct.data) = some bnd)
    (hbne : bnd ≠ [])
    (hmatch : findMatchingPart field
      (pySplit (bytesOfStr "--" ++ encodeUtf8 bnd) body) = some p)
    (hfn : partFilename p ≠ none)
    (hmal : findSub bCRLF2 p 0 = none ∨ pyRFind bCRLF p ≤ pyFind bCRLF2 p 0 + 4) :
    extract body ct field = .error .noAudioFile := by
  rw [extract, if_neg (by simp [hmp]), hfb]
  dsimp only
  rw [if_neg hbne, hmatch]
  dsimp only
  rw [extractFromPart]
  obtain ⟨fn, hfneq⟩ := Option.ne_none_iff_exists'.mp hfn
  rw [hfneq, partPayload_eq_none hmal]

/-- Witness for the amended C3 at a concrete body whose matched part has no
blank-line separator. -/
theorem c3_witness :
    extract c3MalformedBody "multipart/form-data; boundary=B" fileField
      = .error .noAudioFile :=
  c3_malformed_part_amended c3MalformedBody "multipart/form-data; boundary=B"
    fileField "B".data
    (bytesOfStr "\r\nContent-Disposition: form-data; name=\x22file\x22PAYLOAD")
    (by decide) (by decide) (by decide) (by decide) (by decide) (Or.inl (by decide))

/-- Counterexample to C5: the claim says every failure is reported as one of
the four structured parse error kinds, translated to a 400-class client
error, never as a 500-class server error.  A matched part whose filename
bytes are not valid UTF-8 (the byte 0xFF in c5Body) raises a
UnicodeDecodeError on line 92, which the blanket except handler of lines
132-134 reports as a 500 server error. -/
theorem c5_counterexample :
    extract c5Body "multipart/form-data; boundary=B" fileField
        = .error .internalError ∧
      statusOf .internalError = 500 ∧ statusOf .internalError ≠ 400 :=
  ⟨rfl, rfl, by decide⟩

/-- C5 as amended: every failure of extraction other than the escaped
filename-decode exception is one of the structured kinds
UnsupportedContentType, MissingBoundary, or the shared no-audio-file error,
and is reported with the 400 client status; only the decode exception
reaches the blanket handler and its 500 status. -/
theorem c5_failure_status_amended (body : List Nat) (ct : String) (field : List Nat)
    (e : ExtractErr) (h : extract body ct field = .error e)
    (hne : e ≠ ExtractErr.internalError) : statusOf e = 400 := by
  cases e with
  | unsupportedContentType => rfl
  | missingBoundary => rfl
  | noAudioFile => rfl
  | internalError => exact absurd rfl hne

/-- Witness for the amended C5 at a concrete non-multipart request. -/
theorem c5_witness : statusOf ExtractErr.unsupportedContentType = 400 :=
  c5_failure_status_amended (bytesOfStr "x") "text/plain" fileField
    ExtractErr.unsupportedContentType (extract_of_unsupported (by decide)) (by decide)

/-- C7: for every body none of whose parts passes the selection test —
containing both the b"Content-Disposition" marker and the exact quoted
b"name=\x22<field>\x22" marker — extraction fails with the 400
"No audio file provided" error of lines 101-103 (the code's realisation of
FieldNotFound) and returns no payload at all. -/
theorem c7_field_not_found (body : List Nat) (ct : String) (field : List Nat)
    (bnd : List Char)
    (hmp : "multipart/form-data".data.isPrefixOf ct.data = true)
    (hfb : findBoundary (pySplit [';'] ct.data) = some bnd)
    (hbne : bnd ≠ [])
    (hnm : ∀ p ∈ pySplit (bytesOfStr "--" ++ encodeUtf8 bnd) body,
      partMatches field p = false) :
    extract body ct field = .error .noAudioFile := by
  rw [extract, if_neg (by simp [hmp]), hfb]
  dsimp only
  rw [if_neg hbne, findMatchingPart_eq_none hnm]

/-- Witness for C7 at a concrete body whose only part names the field
"speech". -/
theorem c7_witness :
    extract c7Body "multipart/form-data; boundary=B" fileField
      = .error .noAudioFile :=
  c7_field_not_found c7Body "multipart/form-data; boundary=B" fileField "B".data
    (by decide) (by decide) (by decide) (by decide)

/-- C6: for every body whose part list decomposes as some non-matching parts
followed by a matching part p and arbitrary later parts — in particular when
two or more parts match — the extraction result is exactly the processing of
p: the first matching part in body order determines the returned filename and
payload, and every later part (matching or not) is ignored, because the loop
of lines 86-99 breaks at the first match. -/
theorem c6_first_match (body : List Nat) (ct : String) (field : List Nat)
    (bnd : List Char) (l1 l2 : List (List Nat)) (p : List Nat)
    (hmp : "multipart/form-data".data.isPrefixOf ct.data = true)
    (hfb : findBoundary (pySplit [';'] ct.data) = some bnd)
    (hbne : bnd ≠ [])
    (hsplit : pySplit (bytesOfStr "--" ++ encodeUtf8 bnd) body = l1 ++ p :: l2)
    (hl1 : ∀ q ∈ l1, partMatches field q = false)
    (hp : partMatches field p = true) :
    extract body ct field = extractFromPart p := by
  rw [extract, if_neg (by simp [hmp]), hfb]
  dsimp only
  rw [if_neg hbne, hsplit, findMatchingPart_append hl1 hp]

set_option maxRecDepth 4000 in
/-- Witness for C6: on the two-part body c6Body the result is the processing
of the first matching part, whose payload is FIRST; the SECOND part is
ignored. -/
theorem c6_witness :
    extract c6Body "multipart/form-data; boundary=B" fileField
        = extractFromPart c6First ∧
      extractFromPart c6First = .ok ("audio.webm", bytesOfStr "FIRST") ∧
      partMatches fileField c6Second = true :=
  ⟨c6_first_match c6Body "multipart/form-data; boundary=B" fileField "B".data
      [[]] [c6Second, bytesOfStr "--\r\n"] c6First
      (by decide) (by decide) (by decide) rfl (by decide) (by decide),
    rfl, by decide⟩

/-- C10: whenever extraction succeeds, the returned payload is a contiguous
byte subsequence (an infix) of the input body — no bytes are fabricated,
reordered, or transformed — and the matched part either contains the
b"filename=\x22" marker, in which case the returned filename is the UTF-8
decoding of a contiguous byte subsequence of that part, or it does not, in
which case the filename is exactly the default "audio.webm". -/
theorem c10_payload_subsequence (body : List Nat) (ct : String) (field : List Nat)
    (fn : String) (pl : List Nat)
    (h : extract body ct field = .ok (fn, pl)) :
    pl <:+: body ∧
      ∃ bnd p, findBoundary (pySplit [';'] ct.data) = some bnd ∧
        p ∈ pySplit (bytesOfStr "--" ++ encodeUtf8 bnd) body ∧
        ((pyIn bFnMark p = true ∧ ∃ sub, sub <:+: p ∧
            (decodeUtf8 sub).map List.asString = some fn) ∨
          (pyIn bFnMark p = false ∧ fn = "audio.webm")) := by
  rw [extract] at h
  by_cases hmp : "multipart/form-data".data.isPrefixOf ct.data = false
  · rw [if_pos hmp] at h
    cases h
  · rw [if_neg hmp] at h
    cases hfb : findBoundary (pySplit [';'] ct.data) with
    | none => rw [hfb] at h; cases h
    | some bnd =>
      rw [hfb] at h
      dsimp only at h
      by_cases hbne : bnd = []
      · rw [if_pos hbne] at h; cases h
      · rw [if_neg hbne] at h
        cases hfm : findMatchingPart field
            (pySplit (bytesOfStr "--" ++ encodeUtf8 bnd) body) with
        | none => rw [hfm] at h; cases h
        | some p =>
          rw [hfm] at h
          dsimp only at h
          rw [extractFromPart] at h
          cases hpf : partFilename p with
          | none => rw [hpf] at h; cases h
          | some fn' =>
            rw [hpf] at h
            cases hpp : partPayload p with
            | none => rw [hpp] at h; cases h
            | some pl' =>
              rw [hpp] at h
              dsimp only at h
              obtain ⟨hfn, hpl⟩ : fn' = fn ∧ pl' = pl := by
                have := Except.ok.inj h
                exact ⟨congrArg Prod.fst this, congrArg Prod.snd this⟩
              subst hfn hpl
              have hpmem := findMatchingPart_mem hfm
              have hpinf : p <:+: body := pySplit_infix hpmem
              constructor
              · rw [partPayload] at hpp
                split at hpp
                · have hpl' := Option.some_inj.mp hpp
                  rw [← hpl']
                  exact pySlice_infix.trans hpinf
                · cases hpp
              · refine ⟨bnd, p, rfl, hpmem, ?_⟩
                rw [partFilename] at hpf
                by_cases hin : pyIn bFnMark p = true
                · rw [if_pos hin] at hpf
                  exact Or.inl ⟨hin, pySlice _ _ _, pySlice_infix, hpf⟩
                · rw [if_neg hin] at hpf
                  exact Or.inr ⟨by simpa using hin,
                    (Option.some_inj.mp hpf).symm⟩

/-- Witness for C10 at the concrete success c10Body: the payload XYZDATA is
an infix of the body and the filename a.webm decodes from an infix of the
matched part. -/
theorem c10_witness :
    bytesOfStr "XYZDATA" <:+: c10Body ∧
      ∃ bnd p, findBoundary (pySplit [';']
          ("multipart/form-data; boundary=B" : String).data) = some bnd ∧
        p ∈ pySplit (bytesOfStr "--" ++ encodeUtf8 bnd) c10Body ∧
        ((pyIn bFnMark p = true ∧ ∃ sub, sub <:+: p ∧
            (decodeUtf8 sub).map List.asString = some "a.webm") ∨
          (pyIn bFnMark p = false ∧ "a.webm" = "audio.webm")) :=
  c10_payload_subsequence c10Body "multipart/form-data; boundary=B" fileField
    "a.webm" (bytesOfStr "XYZDATA") rfl

theorem occursAt_append_right [BEq α] [LawfulBEq α] {n P X : List α} {j : Nat}
    (hj : P.length ≤ j) : occursAt n (P ++ X) j = occursAt n X (j - P.length) := by
  rw [occursAt, occursAt, List.drop_append_eq_append_drop,
    List.drop_eq_nil_of_le hj, List.nil_append]

theorem isPySpace_eq_false_of_toNat {c : Char} (h32 : c.toNat ≠ 32)
    (h9 : c.toNat ≠ 9) (h10 : c.toNat ≠ 10) (h13 : c.toNat ≠ 13)
    (h11 : c.toNat ≠ 11) (h12 : c.toNat ≠ 12) : isPySpace c = false := by
  have e1 : c ≠ ' ' := fun hce => h32 (by rw [hce]; rfl)
  have e2 : c ≠ '\t' := fun hce => h9 (by rw [hce]; rfl)
  have e3 : c ≠ '\n' := fun hce => h10 (by rw [hce]; rfl)
  have e4 : c ≠ '\r' := fun hce => h13 (by rw [hce]; rfl)
  have e5 : c ≠ '\x0b' := fun hce => h11 (by rw [hce]; rfl)
  have e6 : c ≠ '\x0c' := fun hce => h12 (by rw [hce]; rfl)
  simp [isPySpace, e1, e2, e3, e4, e5, e6]

theorem buildBody_decomp (boundary filename : List Char) (payload : List Nat) :
    buildBody boundary "file".data filename "audio/webm".data payload
      = c1Sep boundary
          ++ (c1Mid filename payload ++ (c1Sep boundary ++ bytesOfStr "--\r\n")) := by
  rw [buildBody, c1Sep, c1Mid, c1MidA, c1MidD]
  simp only [encodeUtf8_append, bytesOfStr, bCRLF, List.append_assoc]

theorem c1Sep_cons (boundary : List Char) :
    c1Sep boundary = 45 :: 45 :: encodeUtf8 boundary := rfl

theorem c1Sep_ne_nil (boundary : List Char) : c1Sep boundary ≠ [] := by
  rw [c1Sep_cons]
  simp

theorem c1_sep_not_in_fin (boundary : List Char) (hbne : boundary ≠ [])
    (hbchar : ∀ c ∈ boundary, c.toNat < 128 ∧ c.toNat ≠ 59 ∧ c.toNat ≠ 61 ∧
      c.toNat ≠ 32 ∧ c.toNat ≠ 9 ∧ c.toNat ≠ 10 ∧ c.toNat ≠ 13 ∧
      c.toNat ≠ 11 ∧ c.toNat ≠ 12) :
    findSub (c1Sep boundary) (bytesOfStr "--\r\n") 0 = none := by
  apply findSub_eq_none
  intro j _
  obtain ⟨c, cs, rfl⟩ : ∃ c cs, boundary = c :: cs := by
    cases boundary with
    | nil => exact absurd rfl hbne
    | cons c cs => exact ⟨c, cs, rfl⟩
  obtain ⟨ha, -, -, -, -, -, h13c, -, -⟩ := hbchar c (List.mem_cons_self _ _)
  have henc : encodeUtf8 (c :: cs) = c.toNat :: encodeUtf8 cs := by
    rw [encodeUtf8, charUtf8_ascii ha]
    rfl
  have hsep : c1Sep (c :: cs) = 45 :: 45 :: c.toNat :: encodeUtf8 cs := by
    rw [c1Sep_cons, henc]
  have hfin : bytesOfStr "--\r\n" = [45, 45, 13, 10] := rfl
  by_contra hcon
  have hocc : occursAt (c1Sep (c :: cs)) (bytesOfStr "--\r\n") j = true := by
    simpa using hcon
  rw [occursAt_iff, hsep, hfin] at hocc
  rcases j with _ | _ | _ | _ | j
  · simp only [List.drop_zero] at hocc
    have h2 := hocc.getElem (n := 2) (by simp)
    simp at h2
    exact h13c h2
  · simp only [List.drop_succ_cons, List.drop_zero] at hocc
    have h2 := hocc.getElem (n := 1) (by simp)
    simp at h2
  · simp only [List.drop_succ_cons, List.drop_zero] at hocc
    have h2 := hocc.getElem (n := 0) (by simp)
    simp at h2
  · simp only [List.drop_succ_cons, List.drop_zero] at hocc
    have h2 := hocc.getElem (n := 0) (by simp)
    simp at h2
  · simp only [List.drop_succ_cons, List.drop_nil] at hocc
    rw [List.prefix_nil] at hocc
    simp at hocc

theorem c1_parts (boundary filename : List Char) (payload : List Nat)
    (hbne : boundary ≠ [])
    (hbchar : ∀ c ∈ boundary, c.toNat < 128 ∧ c.toNat ≠ 59 ∧ c.toNat ≠ 61 ∧
      c.toNat ≠ 32 ∧ c.toNat ≠ 9 ∧ c.toNat ≠ 10 ∧ c.toNat ≠ 13 ∧
      c.toNat ≠ 11 ∧ c.toNat ≠ 12)
    (hnb : ∀ i, i < (c1Mid filename payload).length →
      occursAt (c1Sep boundary) (c1Mid filename payload ++ c1Sep boundary) i = false) :
    pySplit (c1Sep boundary)
        (buildBody boundary "file".data filename "audio/webm".data payload)
      = [[], c1Mid filename payload, bytesOfStr "--\r\n"] := by
  have hsne := c1Sep_ne_nil boundary
  rw [buildBody_decomp]
  have h1 : findSub (c1Sep boundary)
      (c1Sep boundary ++ (c1Mid filename payload
        ++ (c1Sep boundary ++ bytesOfStr "--\r\n"))) 0 = some 0 := by
    apply findSub_eq_some hsne (Nat.le_refl 0)
    · rw [occursAt_iff, List.drop_zero]
      exact List.prefix_append _ _
    · intro j hj1 hj2
      omega
  rw [pySplit_of_some hsne h1, List.take_zero, Nat.zero_add, List.drop_left]
  have h2 : findSub (c1Sep boundary)
      (c1Mid filename payload ++ (c1Sep boundary ++ bytesOfStr "--\r\n")) 0
      = some (c1Mid filename payload).length := by
    apply findSub_eq_some hsne (Nat.zero_le _)
    · rw [occursAt_iff, List.drop_left]
      exact List.prefix_append _ _
    · intro j _ hj
      have hw : j + (c1Sep boundary).length
          ≤ (c1Mid filename payload ++ c1Sep boundary).length := by
        rw [List.length_append]
        omega
      have hassoc : c1Mid filename payload
            ++ (c1Sep boundary ++ bytesOfStr "--\r\n")
          = (c1Mid filename payload ++ c1Sep boundary) ++ bytesOfStr "--\r\n" := by
        rw [List.append_assoc]
      rw [hassoc, occursAt_append_left hw]
      exact hnb j hj
  rw [pySplit_of_some hsne h2, List.take_left]
  have hdrop : (c1Mid filename payload
        ++ (c1Sep boundary ++ bytesOfStr "--\r\n")).drop
      ((c1Mid filename payload).length + (c1Sep boundary).length)
      = bytesOfStr "--\r\n" := by
    have hassoc : c1Mid filename payload
          ++ (c1Sep boundary ++ bytesOfStr "--\r\n")
        = (c1Mid filename payload ++ c1Sep boundary) ++ bytesOfStr "--\r\n" := by
      rw [List.append_assoc]
    rw [hassoc]
    exact List.drop_left' (by rw [List.length_append])
  rw [hdrop, pySplit_of_none (c1_sep_not_in_fin boundary hbne hbchar)]

theorem c1_match (filename : List Char) (payload : List Nat) :
    findMatchingPart fileField [[], c1Mid filename payload, bytesOfStr "--\r\n"]
      = some (c1Mid filename payload) := by
  have hassoc : c1Mid filename payload = c1MidA ++ (encodeUtf8 filename
      ++ (c1MidD ++ (bytesOfStr "\r\n\r\n" ++ (payload ++ bCRLF)))) := by
    rw [c1Mid]
    simp [List.append_assoc]
  have hcd : pyIn bCD (c1Mid filename payload) = true := by
    apply pyIn_of_occursAt (by decide) (i := 2)
    rw [hassoc]
    exact occursAt_append_of_occursAt (by decide)
  have hnm : pyIn (nameMark fileField) (c1Mid filename payload) = true := by
    apply pyIn_of_occursAt (by decide) (i := 34)
    rw [hassoc]
    exact occursAt_append_of_occursAt (by decide)
  rw [findMatchingPart, if_neg (by decide), findMatchingPart,
    if_pos (by rw [partMatches, hcd, hnm]; rfl)]

theorem c1_filename (filename : List Char) (payload : List Nat)
    (hfne : filename ≠ [])
    (hfchar : ∀ c ∈ filename, c.toNat < 128 ∧ c.toNat ≠ 34 ∧ c.toNat ≠ 13 ∧
      c.toNat ≠ 10) :
    partFilename (c1Mid filename payload) = some filename.asString := by
  have hfa : ∀ c ∈ filename, c.toNat < 128 := fun c hc => (hfchar c hc).1
  have hassoc1 : c1Mid filename payload = c1MidA ++ (encodeUtf8 filename
      ++ (c1MidD ++ (bytesOfStr "\r\n\r\n" ++ (payload ++ bCRLF)))) := by
    rw [c1Mid]
    simp [List.append_assoc]
  have hassoc2 : c1Mid filename payload = c1MidA ++ encodeUtf8 filename
      ++ (c1MidD ++ (bytesOfStr "\r\n\r\n" ++ (payload ++ bCRLF))) := by
    rw [c1Mid]
    simp [List.append_assoc]
  have hA : c1MidA.length = 57 := by decide
  have hfind : findSub bFnMark (c1Mid filename payload) 0 = some 47 := by
    rw [hassoc1]
    exact findSub_append (by decide) (by decide)
  have hin : pyIn bFnMark (c1Mid filename payload) = true := by
    rw [pyIn, hfind]
    rfl
  have hlenAF : (c1MidA ++ encodeUtf8 filename).length
      = 57 + (encodeUtf8 filename).length := by
    rw [List.length_append, hA]
  have hocc34 : occursAt [34] (c1Mid filename payload)
      (57 + (encodeUtf8 filename).length) = true := by
    rw [occursAt_iff, hassoc2, ← hlenAF, List.drop_left]
    exact (List.isPrefixOf_iff_prefix.mp (by decide :
      [34].isPrefixOf c1MidD = true)).trans (List.prefix_append _ _)
  have hmin34 : ∀ j, 57 ≤ j → j < 57 + (encodeUtf8 filename).length →
      occursAt [34] (c1Mid filename payload) j = false := by
    intro j hj1 hj2
    by_contra hcon
    have hocc : occursAt [34] (c1Mid filename payload) j = true := by
      simpa using hcon
    rw [hassoc2] at hocc
    have hav := occursAt_middle_avoid (by simp) (encodeUtf8_ne_nil hfne)
      (fun b hb hbM => by
        simp only [List.mem_cons, List.not_mem_nil, or_false] at hb
        obtain ⟨c, hc, hbc⟩ := mem_encodeUtf8_ascii hfa hbM
        exact (hfchar c hc).2.1 (by rw [← hbc, hb])) hocc
    rw [hA] at hav
    simp only [List.length_cons, List.length_nil] at hav
    omega
  have hfind34 : findSub [34] (c1Mid filename payload) 57
      = some (57 + (encodeUtf8 filename).length) := by
    apply findSub_eq_some (by simp) (by omega) hocc34 hmin34
  have pf1 : pyFind bFnMark (c1Mid filename payload) 0 = ((47 : Nat) : Int) := by
    rw [pyFind, hfind]
  rw [partFilename, if_pos hin, pf1]
  have htn : (((47 : Nat) : Int) + 10).toNat = 57 := by decide
  rw [htn]
  have pf2 : pyFind [34] (c1Mid filename payload) 57
      = ((57 + (encodeUtf8 filename).length : Nat) : Int) := by
    rw [pyFind, hfind34]
  rw [pf2]
  have hcast : ((47 : Nat) : Int) + 10 = ((57 : Nat) : Int) := by decide
  rw [hcast]
  have hslice : pySlice (c1Mid filename payload) ((57 : Nat) : Int)
      (((57 + (encodeUtf8 filename).length : Nat)) : Int) = encodeUtf8 filename := by
    have hps := pySlice_middle (X := c1MidA) (Y := encodeUtf8 filename)
      (Z := c1MidD ++ (bytesOfStr "\r\n\r\n" ++ (payload ++ bCRLF)))
    rw [hA] at hps
    rw [hassoc2]
    exact hps
  rw [hslice, decodeUtf8_encodeUtf8_ascii hfa]
  rfl

theorem c1_payload (filename : List Char) (payload : List Nat)
    (hfne : filename ≠ [])
    (hfchar : ∀ c ∈ filename, c.toNat < 128 ∧ c.toNat ≠ 34 ∧ c.toNat ≠ 13 ∧
      c.toNat ≠ 10)
    (hpne : payload ≠ []) :
    partPayload (c1Mid filename payload) = some payload := by
  have hfa : ∀ c ∈ filename, c.toNat < 128 := fun c hc => (hfchar c hc).1
  have hA : c1MidA.length = 57 := by decide
  have hD : c1MidD.length = 27 := by decide
  have hassoc1 : c1Mid filename payload = c1MidA ++ (encodeUtf8 filename
      ++ (c1MidD ++ (bytesOfStr "\r\n\r\n" ++ (payload ++ bCRLF)))) := by
    rw [c1Mid]
    simp [List.append_assoc]
  have hassoc2 : c1Mid filename payload = c1MidA ++ encodeUtf8 filename
      ++ (c1MidD ++ (bytesOfStr "\r\n\r\n" ++ (payload ++ bCRLF))) := by
    rw [c1Mid]
    simp [List.append_assoc]
  have hassoc3 : c1Mid filename payload = (c1MidA ++ encodeUtf8 filename ++ c1MidD)
      ++ (bytesOfStr "\r\n\r\n" ++ (payload ++ bCRLF)) := by
    rw [c1Mid]
    simp [List.append_assoc]
  have hlenAF : (c1MidA ++ encodeUtf8 filename).length
      = 57 + (encodeUtf8 filename).length := by
    rw [List.length_append, hA]
  have hlen3 : (c1MidA ++ encodeUtf8 filename ++ c1MidD).length
      = 84 + (encodeUtf8 filename).length := by
    rw [List.length_append, List.length_append, hA, hD]
    omega
  have hoccC : occursAt bCRLF2 (c1Mid filename payload)
      (84 + (encodeUtf8 filename).length) = true := by
    rw [occursAt_iff, hassoc3, ← hlen3, List.drop_left]
    exact List.prefix_append _ _
  have hminC : ∀ j, 0 ≤ j → j < 84 + (encodeUtf8 filename).length →
      occursAt bCRLF2 (c1Mid filename payload) j = false := by
    intro j _ hj
    by_contra hcon
    have hocc : occursAt bCRLF2 (c1Mid filename payload) j = true := by
      simpa using hcon
    have hocc2 := hocc
    rw [hassoc2] at hocc2
    have hav := occursAt_middle_avoid (by simp [bCRLF2]) (encodeUtf8_ne_nil hfne)
      (fun b hb hbM => by
        obtain ⟨c, hc, hbc⟩ := mem_encodeUtf8_ascii hfa hbM
        simp only [bCRLF2, List.mem_cons, List.not_mem_nil, or_false] at hb
        rcases hb with rfl | rfl | rfl | rfl
        · exact (hfchar c hc).2.2.1 hbc.symm
        · exact (hfchar c hc).2.2.2 hbc.symm
        · exact (hfchar c hc).2.2.1 hbc.symm
        · exact (hfchar c hc).2.2.2 hbc.symm) hocc2
    rw [hA] at hav
    have hlen4 : bCRLF2.length = 4 := by decide
    rw [hlen4] at hav
    rcases hav with hav1 | hav2
    · -- the occurrence would lie inside c1MidA, which has no double CRLF
      have hw : j + bCRLF2.length ≤ c1MidA.length := by
        rw [hlen4, hA]
        omega
      rw [hassoc1, occursAt_append_left hw] at hocc
      have hnone : findSub bCRLF2 c1MidA 0 = none := by decide
      rw [findSub_none (by simp [bCRLF2]) hnone j (Nat.zero_le _)] at hocc
      cases hocc
    · -- the occurrence would lie before the blank line inside c1MidD
      have hocc3 := hocc
      rw [hassoc2, occursAt_append_right (by rw [hlenAF]; omega)] at hocc3
      rw [hlenAF] at hocc3
      have hassocR : c1MidD ++ (bytesOfStr "\r\n\r\n" ++ (payload ++ bCRLF))
          = (c1MidD ++ bytesOfStr "\r\n\r\n") ++ (payload ++ bCRLF) := by
        rw [List.append_assoc]
      rw [hassocR] at hocc3
      have hfindR : findSub bCRLF2
          ((c1MidD ++ bytesOfStr "\r\n\r\n") ++ (payload ++ bCRLF)) 0 = some 27 :=
        findSub_append (by simp [bCRLF2]) (by decide)
      obtain ⟨-, -, hminR⟩ := findSub_some hfindR
      rw [hminR (j - (57 + (encodeUtf8 filename).length)) (Nat.zero_le _)
        (by omega)] at hocc3
      cases hocc3
  have hfindC : findSub bCRLF2 (c1Mid filename payload) 0
      = some (84 + (encodeUtf8 filename).length) :=
    findSub_eq_some (by simp [bCRLF2]) (Nat.zero_le _) hoccC hminC
  have pfC : pyFind bCRLF2 (c1Mid filename payload) 0
      = ((84 + (encodeUtf8 filename).length : Nat) : Int) := by
    rw [pyFind, hfindC]
  have hKlen : (c1MidA ++ encodeUtf8 filename ++ c1MidD ++ bytesOfStr "\r\n\r\n"
      ++ payload).length = 88 + (encodeUtf8 filename).length + payload.length := by
    simp only [List.length_append, hA, hD]
    have hb4 : (bytesOfStr "\r\n\r\n").length = 4 := by decide
    rw [hb4]
    omega
  have hrf : pyRFind bCRLF (c1Mid filename payload)
      = ((88 + (encodeUtf8 filename).length + payload.length : Nat) : Int) := by
    rw [c1Mid, pyRFind_concat (by simp [bCRLF]), hKlen]
  have hpl : 0 < payload.length := List.length_pos.mpr hpne
  rw [partPayload, pfC, hrf]
  rw [if_pos (by
    rw [Bool.and_eq_true, decide_eq_true_eq, decide_eq_true_eq]
    constructor
    · push_cast
      omega
    · push_cast
      omega)]
  have hc1 : ((84 + (encodeUtf8 filename).length : Nat) : Int) + 4
      = ((88 + (encodeUtf8 filename).length : Nat) : Int) := by
    push_cast
    omega
  rw [hc1]
  have hps := pySlice_middle
    (X := c1MidA ++ encodeUtf8 filename ++ c1MidD ++ bytesOfStr "\r\n\r\n")
    (Y := payload) (Z := bCRLF)
  have hXlen : (c1MidA ++ encodeUtf8 filename ++ c1MidD
      ++ bytesOfStr "\r\n\r\n").length = 88 + (encodeUtf8 filename).length := by
    simp only [List.length_append, hA, hD]
    have hb4 : (bytesOfStr "\r\n\r\n").length = 4 := by decide
    rw [hb4]
    omega
  rw [hXlen] at hps
  rw [c1Mid]
  rw [show c1MidA ++ encodeUtf8 filename ++ c1MidD ++ bytesOfStr "\r\n\r\n"
      ++ payload ++ bCRLF
    = (c1MidA ++ encodeUtf8 filename ++ c1MidD ++ bytesOfStr "\r\n\r\n")
      ++ payload ++ bCRLF from by simp [List.append_assoc]]
  rw [hps]

/-- C1: for every boundary, filename and payload satisfying the multipart
well-formedness conditions — boundary non-empty, ASCII, free of ";", "=",
quotes-irrelevant whitespace and CR/LF; filename non-empty, ASCII, free of
quote, CR and LF bytes; payload non-empty; and the b"--<boundary>" delimiter
not occurring inside the constructed part (the invariant of the multipart
format) — building a body with MultiPartForm for the field "file" and then
extracting the field "file" with the header
multipart/form-data; boundary=<boundary> returns exactly that filename and
payload, byte for byte.  The witness instantiates the claim's concrete case:
boundary XYZ, filename clip.webm, payload 0x00 0x01 0x02 "binarydata". -/
theorem c1_round_trip (boundary filename : List Char) (payload : List Nat)
    (ct : String)
    (hct : ct.data = "multipart/form-data; boundary=".data ++ boundary)
    (hbne : boundary ≠ [])
    (hbchar : ∀ c ∈ boundary, c.toNat < 128 ∧ c.toNat ≠ 59 ∧ c.toNat ≠ 61 ∧
      c.toNat ≠ 32 ∧ c.toNat ≠ 9 ∧ c.toNat ≠ 10 ∧ c.toNat ≠ 13 ∧
      c.toNat ≠ 11 ∧ c.toNat ≠ 12)
    (hfne : filename ≠ [])
    (hfchar : ∀ c ∈ filename, c.toNat < 128 ∧ c.toNat ≠ 34 ∧ c.toNat ≠ 13 ∧
      c.toNat ≠ 10)
    (hpne : payload ≠ [])
    (hnb : ∀ i, i < (c1Mid filename payload).length →
      occursAt (c1Sep boundary) (c1Mid filename payload ++ c1Sep boundary) i
        = false) :
    extract (buildBody boundary "file".data filename "audio/webm".data payload)
      ct fileField = .ok (filename.asString, payload) := by
  have hsw : "multipart/form-data".data.isPrefixOf ct.data = true := by
    rw [hct, List.isPrefixOf_iff_prefix]
    have h0 : "multipart/form-data; boundary=".data
        = "multipart/form-data".data ++ "; boundary=".data := by decide
    rw [h0, List.append_assoc]
    exact List.prefix_append _ _
  have hsemi : ';' ∉ boundary := fun hc => (hbchar ';' hc).2.1 (by decide)
  have heq : '=' ∉ boundary := fun hc => (hbchar '=' hc).2.2.1 (by decide)
  have hfb : findBoundary (pySplit [';'] ct.data) = some boundary := by
    rw [hct, boundaryToken_of_param boundary hsemi heq, pyStrip_eq_self]
    intro c hc
    obtain ⟨-, -, -, h32, h9, h10c, h13c, h11c, h12c⟩ := hbchar c hc
    exact isPySpace_eq_false_of_toNat h32 h9 h10c h13c h11c h12c
  rw [extract, if_neg (by simp [hsw]), hfb]
  dsimp only
  rw [if_neg hbne]
  rw [show bytesOfStr "--" ++ encodeUtf8 boundary = c1Sep boundary from rfl]
  rw [c1_parts boundary filename payload hbne hbchar hnb, c1_match filename payload]
  dsimp only
  rw [extractFromPart, c1_filename filename payload hfne hfchar,
    c1_payload filename payload hfne hfchar hpne]

set_option maxRecDepth 8000 in
/-- Witness for C1: the concrete round trip the claim names — boundary XYZ,
filename clip.webm, payload 0x00 0x01 0x02 followed by "binarydata" — yields
exactly ("clip.webm", that payload). -/
theorem c1_witness :
    extract (buildBody "XYZ".data "file".data "clip.webm".data
        "audio/webm".data ([0, 1, 2] ++ bytesOfStr "binarydata"))
      "multipart/form-data; boundary=XYZ" fileField
      = .ok ("clip.webm", [0, 1, 2] ++ bytesOfStr "binarydata") := by
  have h := c1_round_trip "XYZ".data "clip.webm".data
    ([0, 1, 2] ++ bytesOfStr "binarydata") "multipart/form-data; boundary=XYZ"
    (by decide) (by decide) (by decide) (by decide) (by decide) (by decide)
    (by decide)
  rw [h]
  rfl
